import Mathlib

/-!
Verification of the candidate generator, error-adaptive backoff controller,
shared run state and bounded work queue of the SSH brute-force driver
(`src/ssh-brute.py`), shallowly embedded in Lean.

Conventions of the embedding:
* The generator is modelled with the cancellation flag never set (the
  `self.shutdown` check inside `optimized_generator` is `False` throughout),
  matching the "no cancellation occurs" side conditions of the properties.
* Wall-clock times, random jitter and sleep durations are rationals; the
  random source is an explicit parameter.
* Printing and the fields that only feed printing (`start_time`,
  `last_print`) are omitted: they are output-only and touch no claimed state.
-/

namespace SSHBrute

/-- Configuration constant `MAX_ERRORS_BEFORE_PAUSE = 3` from the source. -/
def MAX_ERRORS_BEFORE_PAUSE : Nat := 3

/-- Configuration constant `PAUSE_DURATION = 10` (seconds) from the source. -/
def PAUSE_DURATION : ℚ := 10

/-- Configuration constant `RETRY_DELAY = 2` (seconds) from the source. -/
def RETRY_DELAY : ℚ := 2

/-- The `PRIORITY_PATTERNS` dict of the source: the single key is 3. An
absent key is modelled as the empty list. -/
def PRIORITY_PATTERNS : Nat → List String := fun n =>
  if n = 3 then ["AAA", "BBB", "CCC", "ADM", "PWD", "SYS", "ADM", "123", "QWE"]
  else []

/-- `itertools.product(charset, repeat=n)` in emission order: the first
(leftmost) position varies slowest, the rightmost fastest. -/
def charsetProduct (cs : List Char) : Nat → List (List Char)
  | 0 => [[]]
  | n + 1 => cs.flatMap fun c => (charsetProduct cs n).map fun t => c :: t

/-- `optimized_generator` of the source with no cancellation: the priority
patterns for the requested length (verbatim, unfiltered), then every
product of the charset, each joined into a string. -/
def optimized_generator (cs : List Char) (L : Nat) : List String :=
  PRIORITY_PATTERNS L ++ (charsetProduct cs L).map String.mk

/-- Decoding of an index into the product element it addresses: the base-`k`
numeral of `i`, most significant digit first, each digit looked up in the
charset. Element `i` of the odometer enumeration. -/
def odometerDecode (cs : List Char) : Nat → Nat → List Char
  | 0, _ => []
  | n + 1, i => cs.getD (i / cs.length ^ n) ' ' :: odometerDecode cs n (i % cs.length ^ n)

/-- The shared mutable state of `BruteForcer`: `attempts`, `found`,
`shutdown`, `consecutive_errors`, `connection_errors` (the total error
count) and `last_error_time`. The printing-only fields `start_time` and
`last_print` are omitted. -/
structure RunState where
  attempts : Nat
  found : Bool
  shutdown : Bool
  consecutive_errors : Nat
  connection_errors : Nat
  last_error_time : ℚ
deriving DecidableEq, Repr

/-- The state all fields start from in `__init__`. -/
def initState : RunState :=
  { attempts := 0, found := false, shutdown := false,
    consecutive_errors := 0, connection_errors := 0, last_error_time := 0 }

/-- `handle_connection_error` of the source: under the lock, increment both
error counters, read the current time, then either (burst: at least
`MAX_ERRORS_BEFORE_PAUSE` consecutive errors and less than 5 seconds since
the previous error) sleep `PAUSE_DURATION` and zero the consecutive
counter, or sleep `RETRY_DELAY` plus the sampled jitter; finally store the
time that was read. Returns the new state and the sleep performed; the
current time and the jitter drawn by `random.uniform(0, 1)` are explicit
arguments. -/
def handle_connection_error (s : RunState) (current_time jitter : ℚ) : RunState × ℚ :=
  let s1 := { s with connection_errors := s.connection_errors + 1,
                     consecutive_errors := s.consecutive_errors + 1 }
  if MAX_ERRORS_BEFORE_PAUSE ≤ s1.consecutive_errors ∧
      current_time - s.last_error_time < 5 then
    ({ s1 with consecutive_errors := 0, last_error_time := current_time }, PAUSE_DURATION)
  else
    ({ s1 with last_error_time := current_time }, RETRY_DELAY + jitter)

/-- The four outcomes one `try_connect` call can end in. For a transport
error the wall-clock time read inside `handle_connection_error` and the
sampled jitter ride along as data. -/
inductive Outcome where
  | success
  | authRejected
  | transportError (t jitter : ℚ)
  | unexpectedError
deriving DecidableEq, Repr

/-- The state update performed inside `try_connect` for each outcome,
paired with the backoff sleep it performs: success and an unexpected error
touch nothing; an authentication rejection zeroes `consecutive_errors`; a
transport error runs `handle_connection_error`. -/
def try_connect_update (s : RunState) : Outcome → RunState × ℚ
  | Outcome.success => (s, 0)
  | Outcome.authRejected => ({ s with consecutive_errors := 0 }, 0)
  | Outcome.transportError t j => handle_connection_error s t j
  | Outcome.unexpectedError => (s, 0)

/-- One fully processed candidate in `worker`: run `try_connect`; on success
set `found` and return without further bookkeeping, otherwise increment
`attempts` and continue. Returns the new state and the backoff sleep. -/
def worker_step (s : RunState) (o : Outcome) : RunState × ℚ :=
  let r := try_connect_update s o
  match o with
  | Outcome.success => ({ r.1 with found := true }, r.2)
  | _ => ({ r.1 with attempts := r.1.attempts + 1 }, r.2)

/-- A sequence of fully processed candidates, by their outcomes. -/
def process_all (s : RunState) (os : List Outcome) : RunState :=
  os.foldl (fun st o => (worker_step st o).1) s

/-- Events that mutate the shared state during a run: a worker fully
processing a candidate with some outcome, the SIGINT `signal_handler`, and
the control thread's cleanup setting `shutdown` after the refill loop
ends. -/
inductive Event where
  | probe (o : Outcome)
  | signal
  | cleanupShutdown
deriving DecidableEq, Repr

/-- `signal_handler` of the source: under the lock, set `shutdown` and
`found` in the same critical section. -/
def signal_handler (s : RunState) : RunState :=
  { s with shutdown := true, found := true }

/-- State transition of one event. -/
def event_step (s : RunState) : Event → RunState
  | Event.probe o => (worker_step s o).1
  | Event.signal => signal_handler s
  | Event.cleanupShutdown => { s with shutdown := true }

/-- A whole run, as the fold of its events. -/
def run_events (s : RunState) (es : List Event) : RunState :=
  es.foldl event_step s

/-- The producer-consumer state: the bounded FIFO work queue (front at the
head) and the still-unconsumed suffix of the generator. -/
structure QState where
  queue : List String
  gen : List String
deriving DecidableEq, Repr

/-- The two kinds of queue activity during steady state. -/
inductive QStep where
  | refill
  | pop
deriving DecidableEq, Repr

/-- One iteration of the control thread's refill loop (without its 100 ms
sleep, which only paces the polls): if the queue is below the low watermark
of 500, push the generator's next candidate; an exhausted generator means
the loop has stopped, so nothing is pushed ever again. -/
def refill_step : QState → QState
  | ⟨q, g⟩ =>
    if q.length < 500 then
      match g with
      | [] => ⟨q, []⟩
      | c :: rest => ⟨q ++ [c], rest⟩
    else ⟨q, g⟩

/-- A worker's non-blocking `get_nowait`: pop the front if any. -/
def pop_step : QState → QState × Option String
  | ⟨[], g⟩ => (⟨[], g⟩, none)
  | ⟨c :: q, g⟩ => (⟨q, g⟩, some c)

/-- One interleaved scheduler step: a refill poll or a worker pop. -/
def q_step (s : QState) : QStep → QState
  | QStep.refill => refill_step s
  | QStep.pop => (pop_step s).1

/-- The startup fill of `run`: push candidates while the queue holds fewer
than 1000, stopping early when the generator is exhausted. -/
def initial_fill_loop : List String → List String → QState
  | q, [] => ⟨q, []⟩
  | q, c :: rest =>
    if q.length < 1000 then initial_fill_loop (q ++ [c]) rest
    else ⟨q, c :: rest⟩

/-- The queue state handed to the workers: the startup fill run on an empty
queue. -/
def initial_fill (gen : List String) : QState :=
  initial_fill_loop [] gen

/-- A whole steady-state run, as the fold of its interleaved steps. -/
def run_steps (s : QState) (steps : List QStep) : QState :=
  steps.foldl q_step s

theorem range_mul_flatMap (k m : Nat) :
    List.range (k * m) = (List.range k).flatMap fun j => (List.range m).map fun i => j * m + i := by
  induction k with
  | zero => simp
  | succ k ih =>
      rw [Nat.succ_mul, List.range_add, ih, List.range_succ, List.flatMap_append]
      simp

theorem flatMap_eq_range_flatMap {α β : Type} (cs : List α) (f : α → List β) (d : α) :
    cs.flatMap f = (List.range cs.length).flatMap fun j => f (cs.getD j d) := by
  induction cs with
  | nil => simp
  | cons c cs ih =>
      rw [List.flatMap_cons, List.length_cons, List.range_succ_eq_map, List.flatMap_cons,
        List.flatMap_map, ih]
      simp [Function.comp]

theorem charsetProduct_eq_range_map (cs : List Char) :
    ∀ n, charsetProduct cs n =
      (List.range (cs.length ^ n)).map (odometerDecode cs n) := by
  intro n
  induction n with
  | zero => simp [charsetProduct, odometerDecode]
  | succ n ih =>
      rcases List.eq_nil_or_concat cs with hnil | _
      · subst hnil
        simp [charsetProduct, pow_succ]
      · have hk : 0 < cs.length := by
          cases cs with
          | nil => simp_all
          | cons a l => simp
        have hkn : 0 < cs.length ^ n := Nat.pos_pow_of_pos n hk
        show cs.flatMap (fun c => (charsetProduct cs n).map fun t => c :: t) = _
        rw [ih, flatMap_eq_range_flatMap cs _ ' ',
          pow_succ, Nat.mul_comm (cs.length ^ n) cs.length,
          range_mul_flatMap cs.length (cs.length ^ n), List.map_flatMap]
        apply List.flatMap_congr
        intro j hj
        rw [List.map_map, List.map_map]
        apply List.map_congr_left
        intro i hi
        have hi' : i < cs.length ^ n := List.mem_range.mp hi
        have hdiv : (j * cs.length ^ n + i) / cs.length ^ n = j := by
          rw [Nat.mul_comm j (cs.length ^ n), Nat.mul_add_div hkn,
            Nat.div_eq_of_lt hi', Nat.add_zero]
        have hmod : (j * cs.length ^ n + i) % cs.length ^ n = i := by
          rw [Nat.mul_comm j (cs.length ^ n), Nat.mul_add_mod, Nat.mod_eq_of_lt hi']
        show cs.getD j ' ' :: odometerDecode cs n i =
          cs.getD ((j * cs.length ^ n + i) / cs.length ^ n) ' ' ::
            odometerDecode cs n ((j * cs.length ^ n + i) % cs.length ^ n)
        rw [hdiv, hmod]

theorem charsetProduct_length (cs : List Char) (n : Nat) :
    (charsetProduct cs n).length = cs.length ^ n := by
  rw [charsetProduct_eq_range_map, List.length_map, List.length_range]

theorem mem_charsetProduct (cs : List Char) :
    ∀ (n : Nat) (l : List Char),
      l ∈ charsetProduct cs n ↔ l.length = n ∧ ∀ c ∈ l, c ∈ cs := by
  intro n
  induction n with
  | zero =>
      intro l
      simp only [charsetProduct, List.mem_singleton, List.length_eq_zero]
      constructor
      · rintro rfl; simp
      · rintro ⟨rfl, -⟩; rfl
  | succ n ih =>
      intro l
      show l ∈ cs.flatMap (fun c => (charsetProduct cs n).map fun t => c :: t) ↔ _
      simp only [List.mem_flatMap, List.mem_map]
      constructor
      · rintro ⟨c, hc, t, ht, rfl⟩
        obtain ⟨hlen, hmem⟩ := (ih t).mp ht
        refine ⟨by simp [hlen], ?_⟩
        intro x hx
        rcases List.mem_cons.mp hx with rfl | hx
        · exact hc
        · exact hmem x hx
      · rintro ⟨hlen, hmem⟩
        cases l with
        | nil => simp at hlen
        | cons c t =>
            refine ⟨c, hmem c (by simp), t, (ih t).mpr ⟨by simpa using hlen, ?_⟩, rfl⟩
            intro x hx
            exact hmem x (List.mem_cons_of_mem c hx)

theorem charsetProduct_nodup (cs : List Char) (h : cs.Nodup) :
    ∀ n, (charsetProduct cs n).Nodup := by
  intro n
  induction n with
  | zero => simp [charsetProduct]
  | succ n ih =>
      show (cs.flatMap fun c => (charsetProduct cs n).map fun t => c :: t).Nodup
      rw [List.nodup_flatMap]
      constructor
      · intro c _
        exact ih.map fun t₁ t₂ ht => by injection ht
      · refine List.Pairwise.imp ?_ h
        intro a b hab x hxa hxb
        obtain ⟨t₁, -, rfl⟩ := List.mem_map.mp hxa
        obtain ⟨t₂, -, ht⟩ := List.mem_map.mp hxb
        exact hab (by injection ht.symm)

theorem string_mk_injective : Function.Injective String.mk :=
  fun _ _ hab => congrArg String.data hab

theorem string_mk_data (s : String) : String.mk s.data = s := by
  cases s
  rfl

/-- C1: for every requested length whose priority-table entry is non-empty,
the generator's first outputs are exactly that entry, verbatim and in table
order, before any exhaustively generated candidate, for every charset. -/
theorem priority_first (cs : List Char) (L : Nat) (_h : PRIORITY_PATTERNS L ≠ []) :
    (optimized_generator cs L).take (PRIORITY_PATTERNS L).length = PRIORITY_PATTERNS L := by
  unfold optimized_generator
  exact List.take_left _ _

/-- Witness for `priority_first` at length 3 with a one-letter charset. -/
theorem priority_first_witness :
    PRIORITY_PATTERNS 3 ≠ [] ∧
    (optimized_generator ['a'] 3).take (PRIORITY_PATTERNS 3).length = PRIORITY_PATTERNS 3 :=
  ⟨by decide, priority_first ['a'] 3 (by decide)⟩

/-- C2: for a duplicate-free charset of size k and any length L, with no
cancellation, the generator output after the priority items is exactly the
odometer enumeration (index i maps to the base-k numeral of i spelled in the
charset, rightmost position varying fastest): all k ^ L strings over the
charset, each exactly once, in that order. -/
theorem generator_odometer (cs : List Char) (L : Nat) (hnd : cs.Nodup) :
    (optimized_generator cs L).drop (PRIORITY_PATTERNS L).length =
      (List.range (cs.length ^ L)).map (fun i => String.mk (odometerDecode cs L i)) ∧
    ((optimized_generator cs L).drop (PRIORITY_PATTERNS L).length).length = cs.length ^ L ∧
    ((optimized_generator cs L).drop (PRIORITY_PATTERNS L).length).Nodup ∧
    ∀ s : String, s ∈ (optimized_generator cs L).drop (PRIORITY_PATTERNS L).length ↔
      s.data.length = L ∧ ∀ c ∈ s.data, c ∈ cs := by
  have hdrop : (optimized_generator cs L).drop (PRIORITY_PATTERNS L).length =
      (charsetProduct cs L).map String.mk := by
    unfold optimized_generator
    exact List.drop_left _ _
  refine ⟨?_, ?_, ?_, ?_⟩
  · rw [hdrop, charsetProduct_eq_range_map, List.map_map]
    rfl
  · rw [hdrop, List.length_map, charsetProduct_length]
  · rw [hdrop]
    exact (charsetProduct_nodup cs hnd L).map string_mk_injective
  · intro s
    rw [hdrop]
    constructor
    · intro hs
      obtain ⟨t, ht, rfl⟩ := List.mem_map.mp hs
      exact (mem_charsetProduct cs L t).mp ht
    · rintro ⟨hlen, hmem⟩
      refine List.mem_map.mpr ⟨s.data, (mem_charsetProduct cs L s.data).mpr ⟨hlen, hmem⟩, ?_⟩
      exact string_mk_data s

/-- Witness for `generator_odometer` on the charset `ab` at length 2. -/
theorem generator_odometer_witness :
    List.Nodup ['a', 'b'] ∧
    ((optimized_generator ['a', 'b'] 2).drop (PRIORITY_PATTERNS 2).length =
      (List.range ((['a', 'b'] : List Char).length ^ 2)).map
        (fun i => String.mk (odometerDecode ['a', 'b'] 2 i)) ∧
    ((optimized_generator ['a', 'b'] 2).drop (PRIORITY_PATTERNS 2).length).length =
      (['a', 'b'] : List Char).length ^ 2 ∧
    ((optimized_generator ['a', 'b'] 2).drop (PRIORITY_PATTERNS 2).length).Nodup ∧
    ∀ s : String, s ∈ (optimized_generator ['a', 'b'] 2).drop (PRIORITY_PATTERNS 2).length ↔
      s.data.length = 2 ∧ ∀ c ∈ s.data, c ∈ (['a', 'b'] : List Char)) :=
  ⟨by decide, generator_odometer ['a', 'b'] 2 (by decide)⟩

/-- C9 counterexample: with the charset `01` at length 3 the generator emits
17 candidates, which exceeds the claimed bound of 2 ^ 3 = 8: the 9 priority
patterns are emitted in addition to the 8 products. -/
theorem generator_exceeds_claimed_bound :
    (optimized_generator ['0', '1'] 3).length = 17 ∧
    ¬ (optimized_generator ['0', '1'] 3).length ≤ (['0', '1'] : List Char).length ^ 3 := by
  constructor
  · rfl
  · decide

/-- C9 amended: with no cancellation the generator emits exactly
(number of priority patterns for L) + k ^ L candidates, hence at most that
many; cancellation can only shorten the sequence. -/
theorem generator_length (cs : List Char) (L : Nat) :
    (optimized_generator cs L).length = (PRIORITY_PATTERNS L).length + cs.length ^ L := by
  unfold optimized_generator
  rw [List.length_append, List.length_map, charsetProduct_length]

/-- C10: the generator can emit the same candidate more than once: the
length-3 priority table lists ADM twice, any priority pattern of the right
length whose characters all lie in the active charset is emitted again
during exhaustive enumeration, and concretely the charset `123` at length 3
yields a list with duplicates. -/
theorem duplicate_candidates :
    (PRIORITY_PATTERNS 3).count "ADM" = 2 ∧
    (∀ (cs : List Char) (L : Nat) (p : String), p ∈ PRIORITY_PATTERNS L →
      p.data.length = L → (∀ c ∈ p.data, c ∈ cs) →
      2 ≤ (optimized_generator cs L).count p) ∧
    ¬ (optimized_generator ['1', '2', '3'] 3).Nodup := by
  refine ⟨by decide, ?_, by decide⟩
  intro cs L p hp hlen hmem
  unfold optimized_generator
  rw [List.count_append]
  have h1 : 1 ≤ (PRIORITY_PATTERNS L).count p := List.count_pos_iff.mpr hp
  have h2 : 1 ≤ ((charsetProduct cs L).map String.mk).count p := by
    refine List.count_pos_iff.mpr (List.mem_map.mpr ⟨p.data, ?_, string_mk_data p⟩)
    exact (mem_charsetProduct cs L p.data).mpr ⟨hlen, hmem⟩
  omega

/-- Witness for `duplicate_candidates` with the digits charset: the priority
pattern 123 is also produced by the exhaustive phase, so it appears at least
twice in one run. -/
theorem duplicate_candidates_witness :
    ("123" ∈ PRIORITY_PATTERNS 3 ∧ ("123" : String).data.length = 3 ∧
      (∀ c ∈ ("123" : String).data,
        c ∈ (['0', '1', '2', '3', '4', '5', '6', '7', '8', '9'] : List Char))) ∧
    2 ≤ (optimized_generator ['0', '1', '2', '3', '4', '5', '6', '7', '8', '9'] 3).count "123" :=
  ⟨⟨by decide, by decide, by decide⟩,
    duplicate_candidates.2.1 ['0', '1', '2', '3', '4', '5', '6', '7', '8', '9'] 3 "123"
      (by decide) (by decide) (by decide)⟩

theorem handle_connection_error_frame (s : RunState) (t j : ℚ) :
    (handle_connection_error s t j).1.attempts = s.attempts ∧
    (handle_connection_error s t j).1.found = s.found ∧
    (handle_connection_error s t j).1.shutdown = s.shutdown := by
  by_cases hc : MAX_ERRORS_BEFORE_PAUSE ≤ s.consecutive_errors + 1 ∧
      t - s.last_error_time < 5 <;>
    simp [handle_connection_error, hc]

theorem worker_step_attempts (s : RunState) (o : Outcome) :
    (worker_step s o).1.attempts =
      s.attempts + (if o = Outcome.success then 0 else 1) := by
  cases o with
  | success => simp [worker_step, try_connect_update]
  | authRejected => simp [worker_step, try_connect_update]
  | unexpectedError => simp [worker_step, try_connect_update]
  | transportError t j =>
      have h := (handle_connection_error_frame s t j).1
      show (handle_connection_error s t j).1.attempts + 1 = _
      rw [h]
      simp

theorem worker_step_found (s : RunState) (o : Outcome) :
    ((worker_step s o).1.found = true ↔ (s.found = true ∨ o = Outcome.success)) := by
  cases o with
  | success => simp [worker_step, try_connect_update]
  | authRejected => simp [worker_step, try_connect_update]
  | unexpectedError => simp [worker_step, try_connect_update]
  | transportError t j =>
      have h := (handle_connection_error_frame s t j).2.1
      show ((handle_connection_error s t j).1.found = true ↔ _)
      rw [h]
      simp

theorem worker_step_shutdown (s : RunState) (o : Outcome) :
    (worker_step s o).1.shutdown = s.shutdown := by
  cases o with
  | success => rfl
  | authRejected => rfl
  | unexpectedError => rfl
  | transportError t j =>
      have h := (handle_connection_error_frame s t j).2.2
      show (handle_connection_error s t j).1.shutdown = s.shutdown
      exact h

theorem process_all_attempts (os : List Outcome) : ∀ s : RunState,
    (process_all s os).attempts =
      s.attempts + os.countP (fun x => decide (x ≠ Outcome.success)) := by
  induction os with
  | nil =>
      intro s
      simp [process_all]
  | cons o os ih =>
      intro s
      show (process_all (worker_step s o).1 os).attempts = _
      rw [ih ((worker_step s o).1), worker_step_attempts, List.countP_cons]
      by_cases ho : o = Outcome.success
      · subst ho
        simp
      · simp only [ho, if_false, ne_eq, decide_not]
        simp [ho]
        omega

theorem event_step_found_iff (s : RunState) (e : Event) :
    ((event_step s e).found = true ↔
      (s.found = true ∨ e = Event.signal ∨ e = Event.probe Outcome.success)) := by
  cases e with
  | probe o =>
      show ((worker_step s o).1.found = true ↔ _)
      rw [worker_step_found]
      constructor
      · rintro (h | rfl)
        · exact Or.inl h
        · exact Or.inr (Or.inr rfl)
      · rintro (h | h | h)
        · exact Or.inl h
        · exact absurd h (by simp)
        · injection h with h'
          exact Or.inr h'
  | signal => simp [event_step, signal_handler]
  | cleanupShutdown => simp [event_step]

theorem event_step_shutdown_mono (s : RunState) (e : Event) :
    s.shutdown = true → (event_step s e).shutdown = true := by
  cases e with
  | probe o =>
      intro h
      show (worker_step s o).1.shutdown = true
      rw [worker_step_shutdown]
      exact h
  | signal => intro _; rfl
  | cleanupShutdown => intro _; rfl

theorem run_events_found_mono (es : List Event) : ∀ s : RunState,
    s.found = true → (run_events s es).found = true := by
  induction es with
  | nil => intro s h; exact h
  | cons e es ih =>
      intro s h
      show (run_events (event_step s e) es).found = true
      exact ih _ ((event_step_found_iff s e).mpr (Or.inl h))

theorem refill_step_le (s : QState) :
    (refill_step s).queue.length ≤ s.queue.length + 1 := by
  obtain ⟨q, g⟩ := s
  by_cases hq : q.length < 500
  · cases g <;> simp [refill_step, hq]
  · simp [refill_step, hq]

theorem refill_step_push_below (s : QState)
    (h : s.queue.length < (refill_step s).queue.length) : s.queue.length < 500 := by
  obtain ⟨q, g⟩ := s
  by_cases hq : q.length < 500
  · exact hq
  · simp [refill_step, hq] at h

theorem refill_step_exact (s : QState) (hq : s.queue.length < 500) (c : String)
    (rest : List String) (hg : s.gen = c :: rest) :
    refill_step s = ⟨s.queue ++ [c], rest⟩ := by
  obtain ⟨q, g⟩ := s
  cases hg
  simp [refill_step, hq]

theorem q_step_cap (s : QState) (st : QStep) (h : s.queue.length ≤ 5000) :
    (q_step s st).queue.length ≤ 5000 := by
  cases st with
  | refill =>
      obtain ⟨q, g⟩ := s
      by_cases hq : q.length < 500
      · cases g with
        | nil => simpa [q_step, refill_step, hq] using h
        | cons c rest =>
            show (refill_step ⟨q, c :: rest⟩).queue.length ≤ 5000
            simp [refill_step, hq]
            omega
      · simpa [q_step, refill_step, hq] using h
  | pop =>
      obtain ⟨q, g⟩ := s
      cases q with
      | nil => exact h
      | cons c q =>
          simp only [q_step, pop_step, List.length_cons] at h ⊢
          omega

theorem q_step_exhausted (s : QState) (st : QStep) (hg : s.gen = []) :
    (q_step s st).gen = [] ∧ (q_step s st).queue.length ≤ s.queue.length := by
  cases st with
  | refill =>
      obtain ⟨q, g⟩ := s
      cases hg
      by_cases hq : q.length < 500 <;> simp [q_step, refill_step, hq]
  | pop =>
      obtain ⟨q, g⟩ := s
      cases hg
      cases q with
      | nil => simp [q_step, pop_step]
      | cons c q => simp [q_step, pop_step]

theorem initial_fill_loop_le : ∀ (g q : List String), q.length ≤ 1000 →
    (initial_fill_loop q g).queue.length ≤ 1000 := by
  intro g
  induction g with
  | nil =>
      intro q h
      simpa [initial_fill_loop] using h
  | cons c rest ih =>
      intro q h
      by_cases hq : q.length < 1000
      · simp only [initial_fill_loop, if_pos hq]
        exact ih (q ++ [c]) (by simp [List.length_append]; omega)
      · simp only [initial_fill_loop, if_neg hq]
        simpa using h

theorem run_steps_cap : ∀ (steps : List QStep) (s : QState),
    s.queue.length ≤ 5000 → (run_steps s steps).queue.length ≤ 5000 := by
  intro steps
  induction steps with
  | nil => intro s h; exact h
  | cons st steps ih =>
      intro s h
      exact ih (q_step s st) (q_step_cap s st h)

/-- C6: the queue never exceeds 5000 along any interleaving of refill polls
and pops from the startup fill onward; a refill poll grows the queue only
when it is below the low watermark of 500, by at most one candidate, and
when it is below the watermark with the generator non-exhausted it pushes
exactly the next candidate; once the generator is exhausted nothing is ever
pushed again. -/
theorem queue_bounds (s : QState) (st : QStep) (gen : List String)
    (steps : List QStep) (hcap : s.queue.length ≤ 5000) :
    (q_step s st).queue.length ≤ 5000 ∧
    (s.queue.length < (refill_step s).queue.length → s.queue.length < 500) ∧
    (refill_step s).queue.length ≤ s.queue.length + 1 ∧
    (s.queue.length < 500 → ∀ c rest, s.gen = c :: rest →
      refill_step s = ⟨s.queue ++ [c], rest⟩) ∧
    (s.gen = [] → (q_step s st).gen = [] ∧ (q_step s st).queue.length ≤ s.queue.length) ∧
    (run_steps (initial_fill gen) steps).queue.length ≤ 5000 :=
  ⟨q_step_cap s st hcap,
   refill_step_push_below s,
   refill_step_le s,
   fun hq c rest hg => refill_step_exact s hq c rest hg,
   q_step_exhausted s st,
   run_steps_cap steps (initial_fill gen)
     (Nat.le_trans (initial_fill_loop_le gen []
       (by simp)) (by omega))⟩

/-- Witness for `queue_bounds`: one candidate, a refill then a pop. -/
theorem queue_bounds_witness :
    (([] : List String).length ≤ 5000 ∧
      (QState.mk ([] : List String) ["x"]).queue.length < 500 ∧
      (QState.mk ([] : List String) ["x"]).gen = "x" :: []) ∧
    ((q_step ⟨[], ["x"]⟩ QStep.refill).queue.length ≤ 5000 ∧
      refill_step ⟨[], ["x"]⟩ = ⟨[] ++ ["x"], []⟩ ∧
      (run_steps (initial_fill ["x"]) [QStep.refill, QStep.pop]).queue.length ≤ 5000) :=
  ⟨⟨by decide, by decide, by decide⟩,
   (queue_bounds ⟨[], ["x"]⟩ QStep.refill ["x"] [QStep.refill, QStep.pop] (by decide)).1,
   (queue_bounds ⟨[], ["x"]⟩ QStep.refill ["x"] [QStep.refill, QStep.pop]
      (by decide)).2.2.2.1 (by decide) "x" [] (by decide),
   (queue_bounds ⟨[], ["x"]⟩ QStep.refill ["x"] [QStep.refill, QStep.pop]
      (by decide)).2.2.2.2.2⟩

/-- C3: on every transport error the handler increments the total and the
consecutive error counters; if that makes at least 3 consecutive errors and
the entry time is within 5 seconds of the previous error, it zeroes the
consecutive counter and pauses exactly 10 seconds, else it sleeps 2 seconds
plus the jitter (so between 2 inclusive and 3 exclusive for jitter in
[0, 1)); in both branches the stored error time becomes the entry time. -/
theorem transport_error_backoff (s : RunState) (t j : ℚ) (h0 : 0 ≤ j) (h1 : j < 1) :
    (handle_connection_error s t j).1.connection_errors = s.connection_errors + 1 ∧
    (handle_connection_error s t j).1.last_error_time = t ∧
    (MAX_ERRORS_BEFORE_PAUSE ≤ s.consecutive_errors + 1 ∧ t - s.last_error_time < 5 →
      (handle_connection_error s t j).1.consecutive_errors = 0 ∧
      (handle_connection_error s t j).2 = 10) ∧
    (¬ (MAX_ERRORS_BEFORE_PAUSE ≤ s.consecutive_errors + 1 ∧ t - s.last_error_time < 5) →
      (handle_connection_error s t j).1.consecutive_errors = s.consecutive_errors + 1 ∧
      2 ≤ (handle_connection_error s t j).2 ∧ (handle_connection_error s t j).2 < 3) := by
  by_cases hc : MAX_ERRORS_BEFORE_PAUSE ≤ s.consecutive_errors + 1 ∧
      t - s.last_error_time < 5
  · refine ⟨?_, ?_, fun _ => ⟨?_, ?_⟩, fun hn => absurd hc hn⟩ <;>
      simp [handle_connection_error, hc, PAUSE_DURATION]
  · refine ⟨?_, ?_, fun hp => absurd hp hc, fun _ => ⟨?_, ?_, ?_⟩⟩ <;>
      simp [handle_connection_error, hc, RETRY_DELAY] <;> linarith

/-- Witness for `transport_error_backoff` with zero jitter at time zero. -/
theorem transport_error_backoff_witness :
    ((0 : ℚ) ≤ 0 ∧ (0 : ℚ) < 1) ∧
    ((handle_connection_error initState 0 0).1.connection_errors =
        initState.connection_errors + 1 ∧
      (handle_connection_error initState 0 0).1.last_error_time = 0 ∧
      (MAX_ERRORS_BEFORE_PAUSE ≤ initState.consecutive_errors + 1 ∧
          (0 : ℚ) - initState.last_error_time < 5 →
        (handle_connection_error initState 0 0).1.consecutive_errors = 0 ∧
        (handle_connection_error initState 0 0).2 = 10) ∧
      (¬ (MAX_ERRORS_BEFORE_PAUSE ≤ initState.consecutive_errors + 1 ∧
          (0 : ℚ) - initState.last_error_time < 5) →
        (handle_connection_error initState 0 0).1.consecutive_errors =
          initState.consecutive_errors + 1 ∧
        2 ≤ (handle_connection_error initState 0 0).2 ∧
        (handle_connection_error initState 0 0).2 < 3)) :=
  ⟨⟨by decide, by decide⟩, transport_error_backoff initState 0 0 (by decide) (by decide)⟩

/-- C4 counterexample: a candidate whose probe succeeds is fully processed
but does not increment `attempts`: the worker sets `found` and returns
before the increment. -/
theorem success_not_counted :
    (worker_step initState Outcome.success).1.attempts ≠ initState.attempts + 1 ∧
    (worker_step initState Outcome.success).1.attempts = initState.attempts ∧
    (worker_step initState Outcome.success).1.found = true := by
  refine ⟨by decide, rfl, rfl⟩

/-- C4 amended: every fully processed candidate with a non-success outcome
increments `attempts` by exactly one, a success outcome leaves `attempts`
unchanged, `attempts` is monotonically non-decreasing, and over a run the
final value equals the starting value plus the number of non-success
candidates fully processed. -/
theorem attempts_counting (s : RunState) (o : Outcome) (os : List Outcome) :
    (o ≠ Outcome.success → (worker_step s o).1.attempts = s.attempts + 1) ∧
    (worker_step s Outcome.success).1.attempts = s.attempts ∧
    s.attempts ≤ (worker_step s o).1.attempts ∧
    (process_all s os).attempts =
      s.attempts + os.countP (fun x => decide (x ≠ Outcome.success)) := by
  refine ⟨?_, rfl, ?_, process_all_attempts os s⟩
  · intro ho
    rw [worker_step_attempts, if_neg ho]
  · rw [worker_step_attempts]
    split <;> omega

/-- Witness for `attempts_counting`: an unexpected error counts, a run of
one unexpected error then one success counts exactly once. -/
theorem attempts_counting_witness :
    (worker_step initState Outcome.unexpectedError).1.attempts = initState.attempts + 1 ∧
    (process_all initState [Outcome.unexpectedError, Outcome.success]).attempts =
      initState.attempts +
        [Outcome.unexpectedError, Outcome.success].countP
          (fun x => decide (x ≠ Outcome.success)) :=
  ⟨(attempts_counting initState Outcome.unexpectedError []).1 (by decide),
   (attempts_counting initState Outcome.success
      [Outcome.unexpectedError, Outcome.success]).2.2.2⟩

/-- C5: `found` is monotone under every event (so it flips false to true at
most once in a run and never returns to false), it flips only on a success
probe or the external signal, the signal handler sets `shutdown` and
`found` in its one critical section, and `shutdown` is monotone too. -/
theorem found_transitions (s : RunState) (e : Event) (es : List Event) :
    (s.found = true → (event_step s e).found = true) ∧
    (s.shutdown = true → (event_step s e).shutdown = true) ∧
    (s.found = false → (event_step s e).found = true →
      e = Event.signal ∨ e = Event.probe Outcome.success) ∧
    (signal_handler s).found = true ∧
    (signal_handler s).shutdown = true ∧
    (s.found = true → (run_events s es).found = true) := by
  refine ⟨?_, event_step_shutdown_mono s e, ?_, rfl, rfl, run_events_found_mono es s⟩
  · intro h
    exact (event_step_found_iff s e).mpr (Or.inl h)
  · intro hf h
    rcases (event_step_found_iff s e).mp h with h' | h'
    · rw [hf] at h'
      exact absurd h' (by decide)
    · exact h'

/-- Witness for `found_transitions`: the signal flips both flags from the
initial state, and both facts persist under a later cleanup event. -/
theorem found_transitions_witness :
    (event_step (signal_handler initState) Event.cleanupShutdown).found = true ∧
    (event_step (signal_handler initState) Event.cleanupShutdown).shutdown = true ∧
    (Event.signal = Event.signal ∨ Event.signal = Event.probe Outcome.success) ∧
    (signal_handler initState).found = true ∧
    (signal_handler initState).shutdown = true ∧
    (run_events (signal_handler initState) [Event.cleanupShutdown]).found = true :=
  ⟨(found_transitions (signal_handler initState) Event.cleanupShutdown []).1 (by decide),
   (found_transitions (signal_handler initState) Event.cleanupShutdown []).2.1 (by decide),
   (found_transitions initState Event.signal []).2.2.1 (by decide) (by decide),
   (found_transitions initState Event.signal []).2.2.2.1,
   (found_transitions initState Event.signal []).2.2.2.2.1,
   (found_transitions (signal_handler initState) Event.signal
      [Event.cleanupShutdown]).2.2.2.2.2 (by decide)⟩

/-- C7: an authentication rejection zeroes the consecutive-error counter,
leaves the total error count, the error timestamp and both flags unchanged,
performs no backoff pause, and the worker continues (it still counts the
attempt). -/
theorem auth_rejected_clears_burst (s : RunState) :
    (worker_step s Outcome.authRejected).1.consecutive_errors = 0 ∧
    (worker_step s Outcome.authRejected).1.connection_errors = s.connection_errors ∧
    (worker_step s Outcome.authRejected).1.last_error_time = s.last_error_time ∧
    (worker_step s Outcome.authRejected).2 = 0 ∧
    (worker_step s Outcome.authRejected).1.attempts = s.attempts + 1 ∧
    (worker_step s Outcome.authRejected).1.found = s.found ∧
    (worker_step s Outcome.authRejected).1.shutdown = s.shutdown :=
  ⟨rfl, rfl, rfl, rfl, rfl, rfl, rfl⟩

/-- C8: an unexpected error leaves the whole error state untouched — total
errors, consecutive errors and the error timestamp keep their prior values,
no backoff sleep happens — and the worker moves on (the attempt is still
counted). -/
theorem unexpected_error_frame (s : RunState) :
    (worker_step s Outcome.unexpectedError).1.connection_errors = s.connection_errors ∧
    (worker_step s Outcome.unexpectedError).1.consecutive_errors = s.consecutive_errors ∧
    (worker_step s Outcome.unexpectedError).1.last_error_time = s.last_error_time ∧
    (worker_step s Outcome.unexpectedError).2 = 0 ∧
    (worker_step s Outcome.unexpectedError).1.attempts = s.attempts + 1 ∧
    (worker_step s Outcome.unexpectedError).1.found = s.found ∧
    (worker_step s Outcome.unexpectedError).1.shutdown = s.shutdown :=
  ⟨rfl, rfl, rfl, rfl, rfl, rfl, rfl⟩

end SSHBrute
